import Mathlib

/-!
Verification of the mosdns-x request pipeline against its specification.

This file shallowly embeds, in Lean 4, the parts of the mosdns-x source that
the specification's claims are about:

* `pkg/query_context/context.go` — the per-request context with its parsed
  and raw response slots and the raw-buffer release hook;
* `pkg/dnsutils` — wire-format helpers: big-endian reads and writes,
  `ExtractTTLOffsets`, `GetHeaderInfo`, `GetMsgKey`,
  `GetMsgKeyWithBytesSalt`;
* `pkg/cache/mem_cache` — the `MemCache.Get` lookup with its fresh/lazy
  expiry logic;
* `plugin/executable/cache/cache.go` — the fresh-hit TTL patching loop of
  the zero-unpack fast path;
* `pkg/bundled_upstream/bundled_upstream.go` — the drain loop of
  `ExchangeParallel` with its success racing and semantic-fallback
  selection;
* `pkg/server/dns_handler/entry_handler.go` — the gatekeeper stage of
  `EntryHandler.ServeDNS`.

Byte buffers are `List Nat` with every element `< 256`; Go's machine
integers are mapped to `Nat`/`Int` with explicit `% 2 ^ w` at the points
where the Go code converts or can overflow.
-/

namespace Mosdns

/-! ## Byte-level helpers (encoding/binary, big-endian) -/

/-- Read one byte, `0` out of range (Go code always bounds-checks before reading). -/
def readByte (b : List Nat) (off : Nat) : Nat := b.getD off 0

/-- `binary.BigEndian.Uint16(b[off:off+2])`. -/
def readU16 (b : List Nat) (off : Nat) : Nat :=
  readByte b off * 256 + readByte b (off + 1)

/-- `binary.BigEndian.Uint32(b[off:off+4])`. -/
def readU32 (b : List Nat) (off : Nat) : Nat :=
  readByte b off * 16777216 + readByte b (off + 1) * 65536 +
    readByte b (off + 2) * 256 + readByte b (off + 3)

/-- `binary.BigEndian.PutUint16(b[off:off+2], v)`. -/
def writeU16 (b : List Nat) (off v : Nat) : List Nat :=
  (b.set off (v / 256 % 256)).set (off + 1) (v % 256)

/-- `binary.BigEndian.PutUint32(b[off:off+4], v)`. -/
def writeU32 (b : List Nat) (off v : Nat) : List Nat :=
  (((b.set off (v / 16777216 % 256)).set (off + 1) (v / 65536 % 256)).set
      (off + 2) (v / 256 % 256)).set (off + 3) (v % 256)

theorem writeU32_length (b : List Nat) (off v : Nat) :
    (writeU32 b off v).length = b.length := by
  simp [writeU32]

theorem writeU16_length (b : List Nat) (off v : Nat) :
    (writeU16 b off v).length = b.length := by
  simp [writeU16]

theorem writeU32_getD_ne (b : List Nat) (off v j : Nat)
    (h : j < off ∨ off + 4 ≤ j) : (writeU32 b off v).getD j 0 = b.getD j 0 := by
  have h0 : off ≠ j := by omega
  have h1 : off + 1 ≠ j := by omega
  have h2 : off + 2 ≠ j := by omega
  have h3 : off + 3 ≠ j := by omega
  simp [writeU32, List.getD_eq_getElem?_getD, List.getElem?_set_ne h0,
    List.getElem?_set_ne h1, List.getElem?_set_ne h2, List.getElem?_set_ne h3]

theorem writeU16_getD_ne (b : List Nat) (off v j : Nat)
    (h : j < off ∨ off + 2 ≤ j) : (writeU16 b off v).getD j 0 = b.getD j 0 := by
  have h0 : off ≠ j := by omega
  have h1 : off + 1 ≠ j := by omega
  simp [writeU16, List.getD_eq_getElem?_getD, List.getElem?_set_ne h0,
    List.getElem?_set_ne h1]

theorem readU32_congr (b b' : List Nat) (off : Nat)
    (h : ∀ j, off ≤ j → j < off + 4 → b.getD j 0 = b'.getD j 0) :
    readU32 b off = readU32 b' off := by
  unfold readU32 readByte
  rw [h off (by omega) (by omega), h (off + 1) (by omega) (by omega),
    h (off + 2) (by omega) (by omega), h (off + 3) (by omega) (by omega)]

theorem getD_set_self (b : List Nat) (off v : Nat) (h : off < b.length) :
    (b.set off v).getD off 0 = v := by
  simp [List.getD_eq_getElem?_getD, List.getElem?_set_self, h]

theorem writeU32_readU32 (b : List Nat) (off v : Nat)
    (hlen : off + 4 ≤ b.length) (hv : v < 4294967296) :
    readU32 (writeU32 b off v) off = v := by
  have h0 : off < b.length := by omega
  have h1 : off + 1 < b.length := by omega
  have h2 : off + 2 < b.length := by omega
  have h3 : off + 3 < b.length := by omega
  unfold readU32 readByte writeU32
  have e3 : ((((b.set off (v / 16777216 % 256)).set (off + 1) (v / 65536 % 256)).set
      (off + 2) (v / 256 % 256)).set (off + 3) (v % 256)).getD (off + 3) 0 = v % 256 := by
    apply getD_set_self
    simpa using h3
  have e2 : ((((b.set off (v / 16777216 % 256)).set (off + 1) (v / 65536 % 256)).set
      (off + 2) (v / 256 % 256)).set (off + 3) (v % 256)).getD (off + 2) 0 = v / 256 % 256 := by
    have hne : off + 3 ≠ off + 2 := by omega
    rw [List.getD_eq_getElem?_getD, List.getElem?_set_ne hne,
      ← List.getD_eq_getElem?_getD]
    apply getD_set_self
    simpa using h2
  have e1 : ((((b.set off (v / 16777216 % 256)).set (off + 1) (v / 65536 % 256)).set
      (off + 2) (v / 256 % 256)).set (off + 3) (v % 256)).getD (off + 1) 0 = v / 65536 % 256 := by
    have hne3 : off + 3 ≠ off + 1 := by omega
    have hne2 : off + 2 ≠ off + 1 := by omega
    rw [List.getD_eq_getElem?_getD, List.getElem?_set_ne hne3, List.getElem?_set_ne hne2,
      ← List.getD_eq_getElem?_getD]
    apply getD_set_self
    simpa using h1
  have e0 : ((((b.set off (v / 16777216 % 256)).set (off + 1) (v / 65536 % 256)).set
      (off + 2) (v / 256 % 256)).set (off + 3) (v % 256)).getD off 0 = v / 16777216 % 256 := by
    have hne3 : off + 3 ≠ off := by omega
    have hne2 : off + 2 ≠ off := by omega
    have hne1 : off + 1 ≠ off := by omega
    rw [List.getD_eq_getElem?_getD, List.getElem?_set_ne hne3, List.getElem?_set_ne hne2,
      List.getElem?_set_ne hne1, ← List.getD_eq_getElem?_getD]
    apply getD_set_self
    exact h0
  rw [e0, e1, e2, e3]
  omega

/-! ## Query context (`pkg/query_context/context.go`)

`Context` carries the parsed response `r`, the raw response bytes `rawR` and
the raw-buffer release hook `rawRReleaseFunc`.  The parsed response is kept
abstract (`RMsg`); the release closure is represented by an identifier so
that its invocations can be counted. -/

/-- Abstract stand-in for `*dns.Msg` stored in the context's response slot. -/
structure RMsg where
  rcode : Int
  answer : Nat
  deriving DecidableEq, Repr

/-- The response-carrying part of `query_context.Context`. -/
structure QueryCtx where
  r : Option RMsg
  rawR : Option (List Nat)
  rawRReleaseFunc : Option Nat
  deriving DecidableEq, Repr

/-- `func (ctx *Context) SetResponse(r *dns.Msg) { ctx.r = r }` -/
def QueryCtx.setResponse (c : QueryCtx) (m : Option RMsg) : QueryCtx :=
  { c with r := m }

/-- `func (ctx *Context) SetRawResponse(raw []byte, releaseFunc func())
    { ctx.rawR = raw; ctx.rawRReleaseFunc = releaseFunc }` -/
def QueryCtx.setRawResponse (c : QueryCtx) (raw : Option (List Nat))
    (releaseFunc : Option Nat) : QueryCtx :=
  { c with rawR := raw, rawRReleaseFunc := releaseFunc }

/-- `func (ctx *Context) ReleaseRawR()`: if the release hook is non-nil, run
it once and nil both `rawR` and the hook.  The second component counts how
many times the release closure ran during this call (0 or 1). -/
def QueryCtx.releaseRawR (c : QueryCtx) : QueryCtx × Nat :=
  match c.rawRReleaseFunc with
  | some _ => ({ c with rawR := none, rawRReleaseFunc := none }, 1)
  | none => (c, 0)

/-- `n` successive calls of `ReleaseRawR`, accumulating the total number of
times the release closure was invoked. -/
def QueryCtx.releaseRawRIter (c : QueryCtx) : Nat → QueryCtx × Nat
  | 0 => (c, 0)
  | n + 1 =>
    let p := c.releaseRawR
    let q := QueryCtx.releaseRawRIter p.1 n
    (q.1, p.2 + q.2)

theorem releaseRawR_of_none (c : QueryCtx) (h : c.rawRReleaseFunc = none) :
    c.releaseRawR = (c, 0) := by
  unfold QueryCtx.releaseRawR
  rw [h]

theorem releaseRawRIter_of_none (c : QueryCtx) (h : c.rawRReleaseFunc = none) :
    ∀ n, c.releaseRawRIter n = (c, 0) := by
  intro n
  induction n with
  | zero => rfl
  | succ n ih =>
    unfold QueryCtx.releaseRawRIter
    rw [releaseRawR_of_none c h]
    simpa using ih

/-- C9 counterexample.  The claim says that at most one of the parsed
response `r` and the raw response `rawR` is non-empty at any time, because
`SetResponse` allegedly clears the raw slot and vice versa.  On the code,
`SetResponse` only assigns `ctx.r`; replaying the cache plugin's hit path
(`SetRawResponse(respRaw, release)` followed by `SetResponse(msg)`,
`plugin/executable/cache/cache.go`) leaves BOTH slots non-empty. -/
theorem c9_both_slots_nonempty_counterexample :
    let c0 : QueryCtx := ⟨none, none, none⟩
    let c1 := (c0.setRawResponse (some [0, 1, 2]) (some 7)).setResponse
      (some ⟨0, 0⟩)
    c1.r ≠ none ∧ c1.rawR ≠ none ∧ c1.rawRReleaseFunc ≠ none := by
  decide

/-- C9 amended: `SetResponse` assigns only the parsed-response field and
leaves the raw response and its release hook unchanged, and `SetRawResponse`
assigns only the raw fields and leaves the parsed response unchanged; hence
both slots can be non-empty simultaneously (the cache hit path sets both,
and the server checks raw first). -/
theorem c9_setters_touch_only_their_slot (c : QueryCtx) (m : Option RMsg)
    (raw : Option (List Nat)) (f : Option Nat) :
    (c.setResponse m).rawR = c.rawR ∧
      (c.setResponse m).rawRReleaseFunc = c.rawRReleaseFunc ∧
      (c.setResponse m).r = m ∧
      (c.setRawResponse raw f).r = c.r ∧
      (c.setRawResponse raw f).rawR = raw ∧
      (c.setRawResponse raw f).rawRReleaseFunc = f := by
  repeat' constructor

/-- C10: if the context holds a release hook, then any positive number `n`
of successive `ReleaseRawR` calls runs the release closure exactly once in
total; the first call nils both the raw bytes and the hook (leaving the
parsed response untouched), so each later call is a no-op. -/
theorem c10_releaseRawR_exactly_once (c : QueryCtx) (n : Nat)
    (hf : c.rawRReleaseFunc ≠ none) (hn : 1 ≤ n) :
    (c.releaseRawRIter n).2 = 1 ∧
      (c.releaseRawRIter n).1.rawR = none ∧
      (c.releaseRawRIter n).1.rawRReleaseFunc = none ∧
      (c.releaseRawRIter n).1.r = c.r := by
  obtain ⟨m, hm⟩ : ∃ m, n = m + 1 := ⟨n - 1, by omega⟩
  subst hm
  obtain ⟨f, hf'⟩ : ∃ f, c.rawRReleaseFunc = some f := by
    cases h : c.rawRReleaseFunc with
    | none => exact absurd h hf
    | some f => exact ⟨f, rfl⟩
  have hstep : c.releaseRawR = ({ c with rawR := none, rawRReleaseFunc := none }, 1) := by
    unfold QueryCtx.releaseRawR
    rw [hf']
  have hrest : QueryCtx.releaseRawRIter { c with rawR := none, rawRReleaseFunc := none } m =
      ({ c with rawR := none, rawRReleaseFunc := none }, 0) :=
    releaseRawRIter_of_none _ rfl m
  unfold QueryCtx.releaseRawRIter
  rw [hstep]
  simp [hrest]

/-- C10 witness: a context holding raw bytes and a release hook, released
three times: exactly one invocation, fields nilled, parsed slot kept. -/
theorem c10_releaseRawR_exactly_once_witness :
    let c : QueryCtx := ⟨some ⟨0, 1⟩, some [9, 9], some 3⟩
    (c.releaseRawRIter 3).2 = 1 ∧
      (c.releaseRawRIter 3).1.rawR = none ∧
      (c.releaseRawRIter 3).1.rawRReleaseFunc = none ∧
      (c.releaseRawRIter 3).1.r = c.r :=
  c10_releaseRawR_exactly_once ⟨some ⟨0, 1⟩, some [9, 9], some 3⟩ 3
    (by decide) (by decide)

/-! ## Entry handler gatekeeper (`pkg/server/dns_handler/entry_handler.go`)

The pre-graph validation stage of `EntryHandler.ServeDNS`, modelled up to
(and excluding) the call of `h.opts.Entry.Exec`.  Question names are byte
strings (`List Nat`), as the Go code indexes `q.Name` bytewise. -/

/-- One entry of `req.Question`. -/
structure DnsQuestion where
  name : List Nat
  qtype : Nat
  qclass : Nat
  deriving DecidableEq, Repr

/-- The fields of `*dns.Msg` that `EntryHandler.ServeDNS` inspects before
running the plugin graph.  `answerCount`/`nsCount` stand for
`len(req.Answer)`/`len(req.Ns)`. -/
structure ReqMsg where
  id : Nat
  opcode : Nat
  response : Bool
  authoritative : Bool
  truncated : Bool
  recursionAvailable : Bool
  zero : Bool
  question : List DnsQuestion
  answerCount : Nat
  nsCount : Nat
  deriving DecidableEq, Repr

/-- The `EntryHandlerOpts` fields used by the gatekeeper. -/
structure GateOpts where
  recursionAvailable : Bool
  blockAAAA : Bool
  blockPTR : Bool
  blockHTTPS : Bool
  blockNoDot : Bool
  deriving DecidableEq, Repr

/-- What the gatekeeper does with a query before the plugin graph runs:
an early reply, or proceed into `Entry.Exec` with the (possibly
name-lowercased) request. -/
inductive GateResult where
  /-- `responseRefused(req)`: `Rcode = RcodeRefused`. -/
  | refused (ra : Bool)
  /-- The RFC 8482 reply: single HINFO answer with the given name, TTL,
  CPU and OS strings. -/
  | hinfo (name : List Nat) (ttl : Nat) (cpu os : String) (ra : Bool)
  /-- Early noise filtering: empty NOERROR reply. -/
  | blockedEmpty (ra : Bool)
  /-- `responseNXDomain(req)`: `Rcode = RcodeNameError`. -/
  | nxdomain (ra : Bool)
  /-- No early reply: the plugin graph runs on this request. -/
  | proceed (req : ReqMsg)
  deriving DecidableEq, Repr

/-- ASCII lowercase of a name byte, the effect of `strings.ToLower` on the
ASCII bytes a DNS name is made of. -/
def lowerByte (c : Nat) : Nat :=
  if 65 ≤ c ∧ c ≤ 90 then c + 32 else c

/-- The single-pass scan of section 4 of `ServeDNS`: was a dot seen among
`name[0 .. len-2]`? -/
def nameHasDot (name : List Nat) : Bool :=
  (name.take (name.length - 1)).any (fun c => c == 46)

/-- The single-pass scan of section 4 of `ServeDNS`: was an uppercase ASCII
byte seen among `name[0 .. len-2]`? -/
def nameHasUpper (name : List Nat) : Bool :=
  (name.take (name.length - 1)).any (fun c => 65 ≤ c && c ≤ 90)

/-- Steps 1–5 of `EntryHandler.ServeDNS` (structural validation, RFC 8482
ANY shortcut, optional early blocks, no-dot check, lowercasing, qclass and
header-flag hygiene), yielding either an early reply or the request that
reaches `Entry.Exec`. -/
def serveDNSGate (opts : GateOpts) (req : ReqMsg) : GateResult :=
  if req.question.length ≠ 1 then .refused opts.recursionAvailable
  else if req.opcode ≠ 0 then .refused opts.recursionAvailable
  else
    let q := req.question.headD ⟨[], 0, 0⟩
    if q.qtype = 255 then
      .hinfo q.name 8482 "ANY obsoleted" "See RFC 8482" opts.recursionAvailable
    else if (opts.blockAAAA && q.qtype == 28) ||
        (opts.blockPTR && q.qtype == 12) ||
        (opts.blockHTTPS && q.qtype == 65) then
      .blockedEmpty opts.recursionAvailable
    else if opts.blockNoDot && !nameHasDot q.name then
      .nxdomain opts.recursionAvailable
    else if q.qclass ≠ 1 then .refused opts.recursionAvailable
    else if req.response || req.authoritative || req.truncated ||
        req.recursionAvailable || req.zero || req.answerCount ≠ 0 ||
        req.nsCount ≠ 0 then
      .refused opts.recursionAvailable
    else .proceed
      (if nameHasUpper q.name then
        { req with question := [{ q with name := q.name.map lowerByte }] }
      else req)

/-- Characters the specification allows in a hostname:
`[A-Za-z0-9._-]` (letters, digits, dot, underscore, hyphen). -/
def specAllowedNameByte (c : Nat) : Bool :=
  (65 ≤ c && c ≤ 90) || (97 ≤ c && c ≤ 122) || (48 ≤ c && c ≤ 57) ||
    c == 46 || c == 95 || c == 45

/-- C7 counterexample.  The claim says every query whose question name
contains a character outside `[A-Za-z0-9._-]` gets an immediate NXDOMAIN.
The gatekeeper performs no character-set validation at all: the name
`a%b.com.` contains `%` (byte 37), yet with default options the query
passes every gate and proceeds into the plugin graph. -/
theorem c7_no_charset_check_counterexample :
    let opts : GateOpts := ⟨false, false, false, false, false⟩
    let req : ReqMsg :=
      ⟨4660, 0, false, false, false, false, false,
        [⟨[97, 37, 98, 46, 99, 111, 109, 46], 1, 1⟩], 0, 0⟩
    serveDNSGate opts req = .proceed req ∧
      ((req.question.headD ⟨[], 0, 0⟩).name.any
        (fun c => !specAllowedNameByte c)) = true := by
  decide

/-- C7 amended: the gatekeeper applies no character-set restriction to the
question name.  For a single-question query of a non-ANY, non-option-blocked
qtype, it answers NXDOMAIN before the plugin graph exactly when the
`BlockNoDot` option is enabled and the name has no dot before its final
byte; all other early replies are REFUSED, HINFO or an empty NOERROR. -/
theorem c7_nxdomain_iff_blockNoDot (opts : GateOpts) (req : ReqMsg)
    (q : DnsQuestion) (hq : req.question = [q]) (hop : req.opcode = 0)
    (hany : q.qtype ≠ 255)
    (hblk : ¬((opts.blockAAAA && q.qtype == 28) ||
      (opts.blockPTR && q.qtype == 12) ||
      (opts.blockHTTPS && q.qtype == 65)) = true) :
    serveDNSGate opts req = .nxdomain opts.recursionAvailable ↔
      opts.blockNoDot = true ∧ nameHasDot q.name = false := by
  unfold serveDNSGate
  rw [hq, hop]
  simp only [List.headD_cons, List.length_cons, List.length_nil]
  rw [if_neg (by omega), if_neg (by omega), if_neg hany, if_neg hblk]
  by_cases hnd : (opts.blockNoDot && !nameHasDot q.name) = true
  · rw [if_pos hnd]
    simp only [Bool.and_eq_true, Bool.not_eq_true'] at hnd
    simp [hnd]
  · rw [if_neg hnd]
    constructor
    · intro hres
      exfalso
      rcases Decidable.em (q.qclass ≠ 1) with hqc | hqc
      · rw [if_pos hqc] at hres
        exact absurd hres (by simp)
      · rw [if_neg hqc] at hres
        split at hres
        · exact absurd hres (by simp)
        · exact absurd hres (by simp)
    · rintro ⟨h1, h2⟩
      exact absurd (by simp [h1, h2] : (opts.blockNoDot && !nameHasDot q.name) = true) hnd

/-- C7 amended-claim witness: with `BlockNoDot` enabled, the dotless name
`localhost.` is answered NXDOMAIN before the plugin graph. -/
theorem c7_nxdomain_iff_blockNoDot_witness :
    let opts : GateOpts := ⟨false, false, false, false, true⟩
    let req : ReqMsg :=
      ⟨1, 0, false, false, false, false, false,
        [⟨[108, 111, 99, 97, 108, 104, 111, 115, 116, 46], 1, 1⟩], 0, 0⟩
    serveDNSGate opts req = .nxdomain false := by
  have h := c7_nxdomain_iff_blockNoDot
    ⟨false, false, false, false, true⟩
    ⟨1, 0, false, false, false, false, false,
      [⟨[108, 111, 99, 97, 108, 104, 111, 115, 116, 46], 1, 1⟩], 0, 0⟩
    ⟨[108, 111, 99, 97, 108, 104, 111, 115, 116, 46], 1, 1⟩
    rfl rfl (by decide) (by decide)
  exact h.mpr (by decide)

/-- C8 counterexample.  The claim says every query whose qclass is not INET
is REFUSED, and every qtype-ANY query gets the HINFO reply.  The ANY check
runs before the qclass check, so an ANY query in class CHAOS (qclass 3) gets
the HINFO reply rather than REFUSED. -/
theorem c8_any_chaos_counterexample :
    let opts : GateOpts := ⟨false, false, false, false, false⟩
    let req : ReqMsg :=
      ⟨7, 0, false, false, false, false, false,
        [⟨[101, 120, 97, 109, 112, 108, 101, 46], 255, 3⟩], 0, 0⟩
    serveDNSGate opts req =
        .hinfo [101, 120, 97, 109, 112, 108, 101, 46] 8482
          "ANY obsoleted" "See RFC 8482" false ∧
      (∀ ra, serveDNSGate opts req ≠ .refused ra) ∧
      (req.question.headD ⟨[], 0, 0⟩).qclass ≠ 1 := by
  refine ⟨by decide, ?_, by decide⟩
  intro ra
  cases ra <;> decide

/-- C8 amended, in evaluation order: (a) a single-question standard-opcode
query of qtype ANY (255) is answered with the single-HINFO reply
`"ANY obsoleted" / "See RFC 8482"`, TTL 8482, regardless of qclass; (b) a
query whose question count is not one is REFUSED; (c) a query that reaches
the qclass check (qtype neither ANY nor blocked by an enabled Block option,
and not rejected by `BlockNoDot`) with qclass ≠ INET is REFUSED. -/
theorem c8_gatekeeper_shortcircuits :
    (∀ (opts : GateOpts) (req : ReqMsg) (q : DnsQuestion),
      req.question = [q] → req.opcode = 0 → q.qtype = 255 →
      serveDNSGate opts req =
        .hinfo q.name 8482 "ANY obsoleted" "See RFC 8482"
          opts.recursionAvailable) ∧
    (∀ (opts : GateOpts) (req : ReqMsg), req.question.length ≠ 1 →
      serveDNSGate opts req = .refused opts.recursionAvailable) ∧
    (∀ (opts : GateOpts) (req : ReqMsg) (q : DnsQuestion),
      req.question = [q] → q.qtype ≠ 255 →
      ¬((opts.blockAAAA && q.qtype == 28) || (opts.blockPTR && q.qtype == 12) ||
        (opts.blockHTTPS && q.qtype == 65)) = true →
      ¬(opts.blockNoDot && !nameHasDot q.name) = true →
      q.qclass ≠ 1 →
      serveDNSGate opts req = .refused opts.recursionAvailable) := by
  refine ⟨?_, ?_, ?_⟩
  · intro opts req q hq hop hty
    unfold serveDNSGate
    rw [hq, hop]
    simp only [List.headD_cons, List.length_cons, List.length_nil]
    rw [if_neg (by omega), if_neg (by omega), if_pos hty]
  · intro opts req hlen
    unfold serveDNSGate
    rw [if_pos hlen]
  · intro opts req q hq hty hblk hnd hqc
    unfold serveDNSGate
    rw [hq]
    simp only [List.headD_cons, List.length_cons, List.length_nil]
    rw [if_neg (by omega)]
    by_cases hop : req.opcode ≠ 0
    · rw [if_pos hop]
    · rw [if_neg hop, if_neg hty, if_neg hblk, if_neg hnd, if_pos hqc]

/-- C8 amended-claim witness: the three short-circuits at concrete inputs —
an ANY query in class CHAOS gets the HINFO reply, a two-question query is
REFUSED, and a non-ANY query of qclass CHAOS is REFUSED. -/
theorem c8_gatekeeper_shortcircuits_witness :
    serveDNSGate ⟨false, false, false, false, false⟩
        ⟨7, 0, false, false, false, false, false,
          [⟨[101, 120, 97, 109, 112, 108, 101, 46], 255, 3⟩], 0, 0⟩ =
      .hinfo [101, 120, 97, 109, 112, 108, 101, 46] 8482
        "ANY obsoleted" "See RFC 8482" false ∧
    serveDNSGate ⟨false, false, false, false, false⟩
        ⟨7, 0, false, false, false, false, false,
          [⟨[97, 46], 1, 1⟩, ⟨[98, 46], 1, 1⟩], 0, 0⟩ = .refused false ∧
    serveDNSGate ⟨false, false, false, false, false⟩
        ⟨7, 0, false, false, false, false, false,
          [⟨[97, 46, 98, 46], 1, 3⟩], 0, 0⟩ = .refused false := by
  refine ⟨?_, ?_, ?_⟩
  · exact c8_gatekeeper_shortcircuits.1 _ _
      ⟨[101, 120, 97, 109, 112, 108, 101, 46], 255, 3⟩ rfl rfl rfl
  · exact c8_gatekeeper_shortcircuits.2.1 _ _ (by decide)
  · exact c8_gatekeeper_shortcircuits.2.2 _ _ ⟨[97, 46, 98, 46], 1, 3⟩ rfl
      (by decide) (by decide) (by decide) (by decide)

/-! ## Upstream racing client (`pkg/bundled_upstream/bundled_upstream.go`)

The drain loop of `ExchangeParallel` for the multi-upstream path (two or
more upstreams), modelled over an arbitrary arrival order of the per-task
results, so every timing interleaving of the racing tasks is covered.  A
result's `raw` field uses `[]` for Go's nil slice. -/

/-- `dnsutils.GetHeaderInfo`: on fewer than 12 bytes the Go function
returns `Rcode: -1` (and zero `ANCount`) together with an error that the
racing client ignores; otherwise rcode is the low nibble of byte 3 and
ANCount is big-endian at offset 6. -/
def getHeaderInfo (raw : List Nat) : Int × Nat :=
  if raw.length < 12 then (-1, 0)
  else ((readByte raw 3 % 16 : Nat), readU16 raw 6)

/-- One `parallelResult` received from the channel.  `errCanceled`
distinguishes `context.Canceled` (logged only) from other errors (collected
into the "all upstreams failed" message). -/
structure PResult where
  isErr : Bool
  errCanceled : Bool
  r : Option RMsg
  raw : List Nat
  deriving DecidableEq, Repr

/-- Phase 2 of the drain loop: the rcode and answer count used for the
success check — from the parsed message when present, else from the raw
header when raw bytes are present, else the zero values. -/
def resultRcodeAn (res : PResult) : Int × Nat :=
  match res.r with
  | some m => (m.rcode, m.answer)
  | none => if res.raw.length > 0 then getHeaderInfo res.raw else (0, 0)

/-- `getRcodePriority`: NXDOMAIN(3) ↦ 3, NOERROR(0) ↦ 2 (NODATA),
ServerFailure(2) ↦ 0, anything else ↦ 1. -/
def getRcodePriority (rcode : Int) : Nat :=
  if rcode = 3 then 3
  else if rcode = 0 then 2
  else if rcode = 2 then 0
  else 1

/-- Phase 3 of the drain loop: the fallback priority of a non-error,
non-answer result (default 1 when neither a parsed message nor raw bytes
are present). -/
def resultPriority (res : PResult) : Nat :=
  match res.r with
  | some m => getRcodePriority m.rcode
  | none =>
    if res.raw.length > 0 then getRcodePriority (getHeaderInfo res.raw).1 else 1

/-- The loop variables of `ExchangeParallel`'s drain loop. -/
structure DrainState where
  errCount : Nat
  bestFallbackRes : Option RMsg
  bestFallbackRaw : List Nat
  bestPrio : Int
  deriving DecidableEq, Repr

/-- What `ExchangeParallel` returns, as seen by its caller. -/
inductive ExchangeOutcome where
  /-- Phase 2 fast path: `cancel(); return res.r, res.raw, nil`. -/
  | success (r : Option RMsg) (raw : List Nat)
  /-- Phase 4 step 1: `return bestFallbackRes, bestFallbackRaw, nil`. -/
  | fallback (r : Option RMsg) (raw : List Nat)
  /-- Phase 4 step 2: `return nil, nil, ctx.Err()`. -/
  | ctxError
  /-- Phase 4 step 3: `ErrAllFailed`, wrapping `collectedErrs` error strings. -/
  | allFailed (collectedErrs : Nat)
  deriving DecidableEq, Repr

/-- Phase 4 of `ExchangeParallel`: fallback if a parsed best fallback is
held, else the caller context's error if it is done, else ErrAllFailed. -/
def drainFinal (st : DrainState) (ctxDone : Bool) : ExchangeOutcome :=
  if st.bestFallbackRes ≠ none then .fallback st.bestFallbackRes st.bestFallbackRaw
  else if ctxDone then .ctxError
  else .allFailed st.errCount

/-- Phase 3 of the drain loop: retain the result as best fallback when no
fallback is held yet, or when its priority strictly exceeds the held one. -/
def phase3Update (st : DrainState) (res : PResult) : DrainState :=
  if (st.bestFallbackRaw.length = 0 ∧ st.bestFallbackRes = none) ∨
      (resultPriority res : Int) > st.bestPrio then
    { st with
      bestFallbackRes := res.r
      bestFallbackRaw := res.raw
      bestPrio := resultPriority res }
  else st

/-- Phases 1–3 of `ExchangeParallel`: one pass over the received results in
arrival order, racing for the first NOERROR-with-answers response and
otherwise retaining the best non-answer fallback, then phase 4. -/
def drainLoop (ctxDone : Bool) : List PResult → DrainState → ExchangeOutcome
  | [], st => drainFinal st ctxDone
  | res :: rest, st =>
    if res.isErr then
      drainLoop ctxDone rest
        { st with errCount := st.errCount + (if res.errCanceled then 0 else 1) }
    else if (resultRcodeAn res).1 = 0 ∧ (resultRcodeAn res).2 > 0 then
      .success res.r res.raw
    else
      drainLoop ctxDone rest (phase3Update st res)

/-- `ExchangeParallel` on the multi-upstream path, given the results the
drain loop receives (in channel arrival order) and whether the caller's
context is done when the drain finishes. -/
def exchangeParallelMulti (results : List PResult) (ctxDone : Bool) :
    ExchangeOutcome :=
  drainLoop ctxDone results ⟨0, none, [], -1⟩

/-- A 12-byte NXDOMAIN response header (rcode 3, no answers), the shortest
raw wire message a zero-unpack UDP upstream can deliver. -/
def nxdomainRaw : List Nat := [0, 0, 0, 3, 0, 0, 0, 0, 0, 0, 0, 0]

/-- Racing fast path, proved as stated for every arrival order: as long as
no earlier non-error result is a NOERROR-with-answers response, the first
such response is returned immediately via phase 2. -/
theorem drainLoop_first_success (ctxDone : Bool) (pre : List PResult)
    (res : PResult) (rest : List PResult) (st : DrainState)
    (hpre : ∀ p ∈ pre, p.isErr = true ∨
      ¬((resultRcodeAn p).1 = 0 ∧ (resultRcodeAn p).2 > 0))
    (herr : res.isErr = false)
    (hok : (resultRcodeAn res).1 = 0 ∧ (resultRcodeAn res).2 > 0) :
    drainLoop ctxDone (pre ++ res :: rest) st = .success res.r res.raw := by
  induction pre generalizing st with
  | nil =>
    unfold drainLoop
    simp [herr, hok]
  | cons p pre ih =>
    have hp := hpre p (List.mem_cons_self p pre)
    have hpre' : ∀ p ∈ pre, p.isErr = true ∨
        ¬((resultRcodeAn p).1 = 0 ∧ (resultRcodeAn p).2 > 0) :=
      fun x hx => hpre x (List.mem_cons_of_mem p hx)
    rcases hp with hperr | hpok
    · unfold drainLoop
      simp only [List.cons_append, hperr, if_true]
      exact ih _ hpre'
    · unfold drainLoop
      by_cases hpe : p.isErr = true
      · simp only [List.cons_append, hpe, if_true]
        exact ih _ hpre'
      · simp only [List.cons_append, hpe, if_false, Bool.false_eq_true, hpok]
        exact ih _ hpre'

/-- C1: with two upstreams and no NOERROR-with-answers result, the claim
says the returned response is the retained non-answer result of highest
priority.  Failing input: a parsed ServerFailure (priority 0) followed by a
raw-only NXDOMAIN wire response (priority 3).  Phase 3 retains the NXDOMAIN
raw bytes as best fallback (overwriting the parsed slot with nil), but
phase 4's guard tests only the parsed slot, so the drain returns the
"all upstreams failed" error instead of the NXDOMAIN response. -/
theorem c1_highest_priority_raw_fallback_dropped :
    let servfail : PResult := ⟨false, false, some ⟨2, 0⟩, []⟩
    let rawNx : PResult := ⟨false, false, none, nxdomainRaw⟩
    resultPriority servfail = 0 ∧ resultPriority rawNx = 3 ∧
      (phase3Update (phase3Update ⟨0, none, [], -1⟩ servfail) rawNx).bestFallbackRaw
        = nxdomainRaw ∧
      exchangeParallelMulti [servfail, rawNx] false = .allFailed 0 := by
  decide

/-- C6: the claim says a retained non-error fallback — parsed message or
raw wire bytes — is returned with a nil error after the drain.  Failing
input: two upstreams both delivering a raw-only NXDOMAIN wire response
(as the zero-unpack UDP transport does).  The raw bytes are retained as
best fallback, yet phase 4 checks only `bestFallbackRes != nil` and falls
through to the "all upstreams failed" error. -/
theorem c6_raw_only_fallback_not_returned :
    let rawNx : PResult := ⟨false, false, none, nxdomainRaw⟩
    rawNx.isErr = false ∧ rawNx.raw ≠ [] ∧
      (phase3Update ⟨0, none, [], -1⟩ rawNx).bestFallbackRaw = nxdomainRaw ∧
      exchangeParallelMulti [rawNx, rawNx] false = .allFailed 0 := by
  decide

/-! ## Cache backend (`pkg/cache/mem_cache`, `Backend` of `pkg/cache/cache.go`)

`MemCache.Get` with the fresh-expire / lazy-expire window logic.  The
sharded LRU map is modelled as an association list; LRU recency bookkeeping
does not touch entry contents and is not modelled.  Timestamps are `Int`
(unit-agnostic: the comparison logic is the same for seconds and
nanoseconds). -/

/-- One `elem` of the mem cache: packet bytes, stored time, fresh-expire,
lazy-expire, TTL offset table (8 slots) and its count. -/
structure CacheElem where
  packet : List Nat
  storedTime : Int
  expire : Int
  lazyExpire : Int
  ttlOffsets : List Nat
  ttlCount : Nat
  deriving DecidableEq, Repr

/-- The `MemCache` state observable by `Get`: the closed flag and the keyed
entries. -/
structure MemCache where
  closed : Bool
  entries : List (String × CacheElem)
  deriving DecidableEq, Repr

/-- Association-list lookup standing for `c.lru.Get(key)`. -/
def MemCache.lookup (c : MemCache) (key : String) : Option CacheElem :=
  (c.entries.find? (fun p => p.1 == key)).map (·.2)

/-- A `Get` hit: the entry's bytes and metadata plus the lazy-hit flag. -/
structure GetHit where
  packet : List Nat
  storedTime : Int
  ttlOffsets : List Nat
  ttlCount : Nat
  lazyHit : Bool
  deriving DecidableEq, Repr

/-- `func (c *MemCache) Get(key string) (packet, storedTime, offsets,
count, lazyHit, ok)`, with `now` passed explicitly for `time.Now()`.
`none` stands for `ok = false` (closed, not found, or past the lazy
window); otherwise the entry's fields are returned unchanged and
`lazyHit = now > e.expire`. -/
def MemCache.get (c : MemCache) (key : String) (now : Int) : Option GetHit :=
  if c.closed then none
  else
    match c.lookup key with
    | none => none
    | some e =>
      if now > e.lazyExpire then none
      else some ⟨e.packet, e.storedTime, e.ttlOffsets, e.ttlCount,
        decide (now > e.expire)⟩

/-- The cache state after a `Get`: `Get` never writes an entry (it returns
`e.packet` and the metadata fields directly), so the state is unchanged. -/
def MemCache.getState (c : MemCache) (_key : String) (_now : Int) : MemCache := c

/-- C3: for a key present with fresh-expire and lazy-expire timestamps,
`Get` at time `now` misses when the cache is closed, the key is absent, or
`now` is past the lazy window; otherwise it hits, returning exactly the
stored entry's bytes and metadata with
`lazyHit = (now > fresh-expire && now ≤ lazy-expire)`, and the cache state
(hence the entry) is unmodified. -/
theorem c3_memcache_get (c : MemCache) (key : String) (now : Int)
    (e : CacheElem) (hopen : c.closed = false) (hfound : c.lookup key = some e) :
    (now > e.lazyExpire → c.get key now = none) ∧
      (now ≤ e.lazyExpire → c.get key now =
        some ⟨e.packet, e.storedTime, e.ttlOffsets, e.ttlCount,
          decide (now > e.expire ∧ now ≤ e.lazyExpire)⟩) ∧
      (∀ k' n', (c.getState k' n').lookup key = some e) ∧
      (MemCache.get { c with closed := true } key now = none) ∧
      (∀ key', c.lookup key' = none → c.get key' now = none) := by
  refine ⟨?_, ?_, ?_, ?_, ?_⟩
  · intro hlate
    unfold MemCache.get
    rw [hopen, hfound]
    simp [hlate]
  · intro hin
    unfold MemCache.get
    rw [hopen, hfound]
    have hno : ¬(now > e.lazyExpire) := by omega
    simp only [Bool.false_eq_true, if_false, hno, if_neg hno]
    have : decide (now > e.expire) = decide (now > e.expire ∧ now ≤ e.lazyExpire) := by
      by_cases hx : now > e.expire
      · simp [hx, hin]
      · simp [hx]
    rw [this]
  · intro k' n'
    exact hfound
  · unfold MemCache.get
    simp
  · intro key' hmiss
    unfold MemCache.get
    rw [hopen, hmiss]
    simp

/-- C3 witness: a one-entry open cache, queried inside the lazy window
(lazy hit), past the lazy window (miss), when closed, and at a missing
key. -/
theorem c3_memcache_get_witness :
    let e : CacheElem := ⟨[1, 2, 3], 100, 200, 300, [16, 30], 2⟩
    let c : MemCache := ⟨false, [("k", e)]⟩
    (250 > e.lazyExpire → c.get "k" 250 = none) ∧
      (250 ≤ e.lazyExpire → c.get "k" 250 =
        some ⟨e.packet, e.storedTime, e.ttlOffsets, e.ttlCount,
          decide (250 > e.expire ∧ 250 ≤ e.lazyExpire)⟩) ∧
      (∀ k' n', (c.getState k' n').lookup "k" = some e) ∧
      (MemCache.get { c with closed := true } "k" 250 = none) ∧
      (∀ key', c.lookup key' = none → c.get key' 250 = none) :=
  c3_memcache_get ⟨false, [("k", ⟨[1, 2, 3], 100, 200, 300, [16, 30], 2⟩)]⟩
    "k" 250 ⟨[1, 2, 3], 100, 200, 300, [16, 30], 2⟩ rfl (by decide)

/-! ## Cache key derivation (`pkg/dnsutils/msg.go`)

`GetMsgKey` composes the key from salt, first-question name/qtype/qclass
and (optionally) the masked ECS option; `GetMsgKeyWithBytesSalt` packs the
message, zeroes the identifier bytes and appends a byte salt.  Keys are
byte strings (`List Nat`). -/

/-- The fields of `dns.EDNS0_SUBNET` that `GetMsgKey` reads. -/
structure EcsOption where
  family : Nat
  sourceNetmask : Nat
  address : List Nat
  deriving DecidableEq, Repr

/-- One EDNS0 option inside an OPT record. -/
inductive EdnsOption where
  | subnet (e : EcsOption)
  | other (code : Nat) (data : List Nat)
  deriving DecidableEq, Repr

/-- One record of the Extra section: an OPT pseudo-record or any other RR. -/
inductive ExtraRecord where
  | optRecord (options : List EdnsOption)
  | rrOther (rrtype : Nat)
  deriving DecidableEq, Repr

/-- The fields of `*dns.Msg` that the key derivation reads. -/
structure KeyMsg where
  id : Nat
  question : List DnsQuestion
  extra : List ExtraRecord
  deriving DecidableEq, Repr

/-- `writeUint16`: two big-endian bytes appended to the key builder. -/
def u16Bytes (v : Nat) : List Nat := [v / 256 % 256, v % 256]

/-- First OPT record of the Extra section (the `for _, extra := range
m.Extra` loop with `break`). -/
def findOpt : List ExtraRecord → Option (List EdnsOption)
  | [] => none
  | .optRecord os :: _ => some os
  | .rrOther _ :: rest => findOpt rest

/-- First `EDNS0_SUBNET` option of an OPT record (the inner loop with
`break`). -/
def findSubnet : List EdnsOption → Option EcsOption
  | [] => none
  | .subnet e :: _ => some e
  | .other _ _ :: rest => findSubnet rest

/-- The masked ECS address bytes: `validBytes = min((netmask+7)/8,
len(address))` bytes of the address, the last of which is masked with
`byte(0xFF << (8 - netmask%8))` when the netmask is not byte-aligned. -/
def maskedAddrBytes (ecs : EcsOption) : List Nat :=
  let validBytes := min ((ecs.sourceNetmask + 7) / 8) ecs.address.length
  (List.range validBytes).map (fun i =>
    let val := ecs.address.getD i 0
    if i = validBytes - 1 ∧ ecs.sourceNetmask % 8 ≠ 0 then
      val &&& (255 <<< (8 - ecs.sourceNetmask % 8) % 256)
    else val)

/-- The ECS suffix of the key: present only when the source netmask is
positive. -/
def ecsKeyBytes (ecs : EcsOption) : List Nat :=
  if ecs.sourceNetmask > 0 then
    u16Bytes ecs.family ++ [ecs.sourceNetmask % 256] ++ maskedAddrBytes ecs
  else []

/-- `GetMsgKey(m, salt, cacheEverything)`: `none` models the "no question"
error; otherwise salt ‖ name ‖ qtype ‖ qclass, plus the masked ECS suffix
when `cacheEverything` is set and the first OPT record holds an ECS
option. -/
def getMsgKey (m : KeyMsg) (salt : Nat) (cacheEverything : Bool) :
    Option (List Nat) :=
  match m.question with
  | [] => none
  | q :: _ =>
    let base := u16Bytes salt ++ q.name ++ u16Bytes q.qtype ++ u16Bytes q.qclass
    if cacheEverything then
      match findOpt m.extra with
      | some os =>
        match findSubnet os with
        | some ecs => some (base ++ ecsKeyBytes ecs)
        | none => some base
      | none => some base
    else some base

/-- Wire form of a DNS name given as a dotted byte string: length-prefixed
labels; the empty label after the trailing dot yields the terminal zero
byte. -/
def nameWire (name : List Nat) : List Nat :=
  ((name.splitOn 46).map (fun l => l.length % 256 :: l)).flatten

/-- Wire form of one EDNS0 option. -/
def optionWire : EdnsOption → List Nat
  | .subnet e => u16Bytes 8 ++ u16Bytes (4 + e.address.length) ++
      u16Bytes e.family ++ [e.sourceNetmask % 256, 0] ++ e.address
  | .other code data => u16Bytes code ++ u16Bytes data.length ++ data

/-- Wire form of one Extra-section record. -/
def extraWire : ExtraRecord → List Nat
  | .optRecord os =>
    let payload := (os.map optionWire).flatten
    0 :: u16Bytes 41 ++ u16Bytes 4096 ++ [0, 0, 0, 0] ++
      u16Bytes payload.length ++ payload
  | .rrOther ty => 0 :: u16Bytes ty ++ [0, 1, 0, 0, 0, 0, 0, 0]

/-- Modelled from the spec: the concrete wire-format codec
(`pool.PackBuffer`, i.e. `dns.Msg.PackBuffer`, an external library per the
specification's scope) packs the 16-bit identifier big-endian into bytes
0–1 and the remainder of the message from the other fields only. -/
def packWire (m : KeyMsg) : List Nat :=
  u16Bytes m.id ++ ([0, 0] ++ u16Bytes m.question.length ++ [0, 0, 0, 0] ++
    u16Bytes m.extra.length ++
    (m.question.map
      (fun q => nameWire q.name ++ u16Bytes q.qtype ++ u16Bytes q.qclass)).flatten ++
    (m.extra.map extraWire).flatten)

/-- `GetMsgKeyWithBytesSalt(m, salt)`: pack the message, zero the two
identifier bytes (`wireMsg[0] = 0; wireMsg[1] = 0`), append the salt. -/
def getMsgKeyWithBytesSalt (m : KeyMsg) (salt : List Nat) : List Nat :=
  let wire := packWire m
  ((wire.set 0 0).set 1 0) ++ salt

/-- C4: the cache key ignores the message identifier — for any two
identifiers, `GetMsgKey` produces identical keys (for every salt and
`cacheEverything` mode), and so does `GetMsgKeyWithBytesSalt`, which zeroes
the identifier bytes of the packed message; hence two queries differing
only in the identifier field produce identical keys. -/
theorem c4_key_ignores_id (m : KeyMsg) (i1 i2 : Nat) (salt : Nat)
    (cacheEverything : Bool) (bsalt : List Nat) :
    getMsgKey { m with id := i1 } salt cacheEverything =
        getMsgKey { m with id := i2 } salt cacheEverything ∧
      getMsgKeyWithBytesSalt { m with id := i1 } bsalt =
        getMsgKeyWithBytesSalt { m with id := i2 } bsalt := by
  constructor
  · rfl
  · simp [getMsgKeyWithBytesSalt, packWire, u16Bytes]

/-! ## Zero-unpack fresh-hit TTL patching (`plugin/executable/cache/cache.go`)

The fresh-hit branch of the cache plugin's `Exec`: the stored packet is
copied into a pooled buffer, the current query identifier is written into
bytes 0–1, and for each recorded TTL offset the 32-bit TTL is replaced by
`oldTTL - elapsed` when `oldTTL > elapsed` and by `1` otherwise, written
back big-endian.  The cache's own copy is never written. -/

/-- One iteration of the fresh-hit TTL loop at offset `off`. -/
def patchOneTTL (elapsed : Nat) (b : List Nat) (off : Nat) : List Nat :=
  let oldTTL := readU32 b off
  let newTTL := if oldTTL > elapsed then oldTTL - elapsed else 1
  writeU32 b off newTTL

/-- The fresh-hit patch: query-id into bytes 0–1 of the buffer copy, then
the TTL rewrite at each recorded offset (`elapsed = uint32(now -
storedTime)` clamped at 0 by the code). -/
def patchFreshHit (packet : List Nat) (qid : Nat) (offsets : List Nat)
    (elapsed : Nat) : List Nat :=
  offsets.foldl (patchOneTTL elapsed) (writeU16 packet 0 qid)

/-- The fresh-hit serve step on a cache entry: the pooled response buffer,
paired with the entry as the code leaves it (the patch writes only the
pooled copy, never `e.packet`). -/
def serveFreshHit (e : CacheElem) (qid : Nat) (elapsed : Nat) :
    List Nat × CacheElem :=
  (patchFreshHit e.packet qid (e.ttlOffsets.take e.ttlCount) elapsed, e)

theorem readByte_lt (b : List Nat) (hb : ∀ x ∈ b, x < 256) (j : Nat) :
    readByte b j < 256 := by
  unfold readByte
  by_cases h : j < b.length
  · rw [List.getD_eq_getElem _ _ h]
    exact hb _ (List.getElem_mem h)
  · rw [List.getD_eq_default _ _ (by omega)]
    omega

theorem readU32_lt (b : List Nat) (hb : ∀ x ∈ b, x < 256) (off : Nat) :
    readU32 b off < 4294967296 := by
  have h0 := readByte_lt b hb off
  have h1 := readByte_lt b hb (off + 1)
  have h2 := readByte_lt b hb (off + 2)
  have h3 := readByte_lt b hb (off + 3)
  unfold readU32
  omega

theorem set_bytes_lt (b : List Nat) (off v : Nat) (hb : ∀ x ∈ b, x < 256)
    (hv : v < 256) : ∀ x ∈ b.set off v, x < 256 := by
  intro x hx
  rcases List.mem_or_eq_of_mem_set hx with h | h
  · exact hb x h
  · omega

theorem writeU32_bytes_lt (b : List Nat) (off v : Nat)
    (hb : ∀ x ∈ b, x < 256) : ∀ x ∈ writeU32 b off v, x < 256 := by
  unfold writeU32
  apply set_bytes_lt _ _ _ ?_ (by omega)
  apply set_bytes_lt _ _ _ ?_ (by omega)
  apply set_bytes_lt _ _ _ ?_ (by omega)
  exact set_bytes_lt _ _ _ hb (by omega)

theorem writeU16_bytes_lt (b : List Nat) (off v : Nat)
    (hb : ∀ x ∈ b, x < 256) : ∀ x ∈ writeU16 b off v, x < 256 := by
  unfold writeU16
  apply set_bytes_lt _ _ _ ?_ (by omega)
  exact set_bytes_lt _ _ _ hb (by omega)

theorem patchOneTTL_length (elapsed : Nat) (b : List Nat) (off : Nat) :
    (patchOneTTL elapsed b off).length = b.length := by
  unfold patchOneTTL
  exact writeU32_length _ _ _

theorem patchOneTTL_bytes_lt (elapsed : Nat) (b : List Nat) (off : Nat)
    (hb : ∀ x ∈ b, x < 256) : ∀ x ∈ patchOneTTL elapsed b off, x < 256 :=
  writeU32_bytes_lt _ _ _ hb

theorem patchOneTTL_getD_ne (elapsed : Nat) (b : List Nat) (off j : Nat)
    (h : j < off ∨ off + 4 ≤ j) :
    (patchOneTTL elapsed b off).getD j 0 = b.getD j 0 :=
  writeU32_getD_ne _ _ _ _ h

theorem foldPatch_length (elapsed : Nat) (offsets : List Nat) (b : List Nat) :
    (offsets.foldl (patchOneTTL elapsed) b).length = b.length := by
  induction offsets generalizing b with
  | nil => rfl
  | cons o rest ih =>
    rw [List.foldl_cons, ih, patchOneTTL_length]

theorem foldPatch_bytes_lt (elapsed : Nat) (offsets : List Nat) (b : List Nat)
    (hb : ∀ x ∈ b, x < 256) :
    ∀ x ∈ offsets.foldl (patchOneTTL elapsed) b, x < 256 := by
  induction offsets generalizing b with
  | nil => exact hb
  | cons o rest ih =>
    rw [List.foldl_cons]
    exact ih _ (patchOneTTL_bytes_lt _ _ _ hb)

theorem foldPatch_getD_outside (elapsed : Nat) (offsets : List Nat)
    (b : List Nat) (j : Nat) (h : ∀ o ∈ offsets, j < o ∨ o + 4 ≤ j) :
    (offsets.foldl (patchOneTTL elapsed) b).getD j 0 = b.getD j 0 := by
  induction offsets generalizing b with
  | nil => rfl
  | cons o rest ih =>
    rw [List.foldl_cons, ih _ (fun x hx => h x (List.mem_cons_of_mem o hx)),
      patchOneTTL_getD_ne _ _ _ _ (h o (List.mem_cons_self o rest))]

theorem foldPatch_readU32 (elapsed : Nat) (offsets : List Nat) (b : List Nat)
    (hb : ∀ x ∈ b, x < 256)
    (hfit : ∀ o ∈ offsets, o + 4 ≤ b.length)
    (hsep : offsets.Pairwise (fun a c => a + 4 ≤ c ∨ c + 4 ≤ a)) :
    ∀ o ∈ offsets, readU32 (offsets.foldl (patchOneTTL elapsed) b) o =
      max 1 (readU32 b o - elapsed) := by
  induction offsets generalizing b with
  | nil => intro o ho; cases ho
  | cons o0 rest ih =>
    have hsep0 : ∀ c ∈ rest, o0 + 4 ≤ c ∨ c + 4 ≤ o0 :=
      (List.pairwise_cons.mp hsep).1
    have hsep' : rest.Pairwise (fun a c => a + 4 ≤ c ∨ c + 4 ≤ a) :=
      (List.pairwise_cons.mp hsep).2
    intro o ho
    rw [List.foldl_cons]
    rcases List.mem_cons.mp ho with rfl | hmem
    · -- the head offset: its own write is preserved by the tail of the fold
      have houtside : ∀ j, o ≤ j → j < o + 4 →
          (rest.foldl (patchOneTTL elapsed) (patchOneTTL elapsed b o)).getD j 0 =
            (patchOneTTL elapsed b o).getD j 0 := by
        intro j hj1 hj2
        apply foldPatch_getD_outside
        intro c hc
        rcases hsep0 c hc with h | h
        · exact Or.inl (by omega)
        · exact Or.inr (by omega)
      rw [readU32_congr _ _ _ houtside]
      have hold := readU32_lt b hb o
      have hfit0 : o + 4 ≤ b.length := hfit o (List.mem_cons_self o rest)
      unfold patchOneTTL
      rw [writeU32_readU32 _ _ _ hfit0 (by split <;> omega)]
      split <;> omega
    · -- an offset of the tail: the head's write is outside its window
      have hb' := patchOneTTL_bytes_lt elapsed b o0 hb
      have hfit' : ∀ c ∈ rest, c + 4 ≤ (patchOneTTL elapsed b o0).length := by
        intro c hc
        rw [patchOneTTL_length]
        exact hfit c (List.mem_cons_of_mem o0 hc)
      have hsame : readU32 (patchOneTTL elapsed b o0) o = readU32 b o := by
        apply readU32_congr
        intro j hj1 hj2
        apply patchOneTTL_getD_ne
        rcases hsep0 o hmem with h | h
        · exact Or.inr (by omega)
        · exact Or.inl (by omega)
      rw [ih _ hb' hfit' hsep' o hmem, hsame]

/-- C2: serving a fresh cache hit `k` seconds after storage writes, at
every recorded TTL offset of the entry, the big-endian 32-bit value
`max 1 (originalTTL - k)` into the pooled response buffer, leaves every
byte outside the identifier field and the TTL windows unchanged, preserves
the buffer length, and returns the cache entry itself unmodified (the
patch runs on the pooled copy only). -/
theorem c2_fresh_hit_ttl_patch (e : CacheElem) (qid k : Nat)
    (hb : ∀ x ∈ e.packet, x < 256)
    (hfit : ∀ o ∈ e.ttlOffsets.take e.ttlCount, 2 ≤ o ∧ o + 4 ≤ e.packet.length)
    (hsep : (e.ttlOffsets.take e.ttlCount).Pairwise
      (fun a c => a + 4 ≤ c ∨ c + 4 ≤ a)) :
    (∀ o ∈ e.ttlOffsets.take e.ttlCount,
      readU32 (serveFreshHit e qid k).1 o = max 1 (readU32 e.packet o - k)) ∧
      (serveFreshHit e qid k).1.length = e.packet.length ∧
      (∀ j, 2 ≤ j → (∀ o ∈ e.ttlOffsets.take e.ttlCount, j < o ∨ o + 4 ≤ j) →
        (serveFreshHit e qid k).1.getD j 0 = e.packet.getD j 0) ∧
      (serveFreshHit e qid k).2 = e := by
  refine ⟨?_, ?_, ?_, rfl⟩
  · intro o ho
    have hwid : ∀ x ∈ writeU16 e.packet 0 qid, x < 256 :=
      writeU16_bytes_lt _ _ _ hb
    have hfit' : ∀ c ∈ e.ttlOffsets.take e.ttlCount,
        c + 4 ≤ (writeU16 e.packet 0 qid).length := by
      intro c hc
      rw [writeU16_length]
      exact (hfit c hc).2
    have h := foldPatch_readU32 k (e.ttlOffsets.take e.ttlCount)
      (writeU16 e.packet 0 qid) hwid hfit' hsep o ho
    have hsame : readU32 (writeU16 e.packet 0 qid) o = readU32 e.packet o := by
      apply readU32_congr
      intro j hj1 hj2
      apply writeU16_getD_ne
      right
      have := (hfit o ho).1
      omega
    unfold serveFreshHit patchFreshHit
    rw [h, hsame]
  · unfold serveFreshHit patchFreshHit
    rw [foldPatch_length, writeU16_length]
  · intro j hj2 hout
    unfold serveFreshHit patchFreshHit
    rw [foldPatch_getD_outside _ _ _ _ hout]
    apply writeU16_getD_ne
    right
    omega

/-- C2 witness: a 20-byte stored response with TTL offsets 12 and 16
holding TTLs 5 and 2, served 3 seconds after storage: TTL 5 becomes 2 and
TTL 2 is floored at 1, the rest of the buffer (past the identifier) is
unchanged, and the entry is untouched. -/
theorem c2_fresh_hit_ttl_patch_witness :
    let e : CacheElem :=
      ⟨[0, 7, 129, 128, 0, 0, 0, 2, 0, 0, 0, 0, 0, 0, 0, 5, 0, 0, 0, 2],
        100, 400, 700, [12, 16, 0, 0, 0, 0, 0, 0], 2⟩
    (∀ o ∈ e.ttlOffsets.take e.ttlCount,
      readU32 (serveFreshHit e 4660 3).1 o = max 1 (readU32 e.packet o - 3)) ∧
      (serveFreshHit e 4660 3).1.length = e.packet.length ∧
      (∀ j, 2 ≤ j → (∀ o ∈ e.ttlOffsets.take e.ttlCount, j < o ∨ o + 4 ≤ j) →
        (serveFreshHit e 4660 3).1.getD j 0 = e.packet.getD j 0) ∧
      (serveFreshHit e 4660 3).2 = e :=
  c2_fresh_hit_ttl_patch
    ⟨[0, 7, 129, 128, 0, 0, 0, 2, 0, 0, 0, 0, 0, 0, 0, 5, 0, 0, 0, 2],
      100, 400, 700, [12, 16, 0, 0, 0, 0, 0, 0], 2⟩
    4660 3 (by decide) (by decide) (by decide)

/-! ## TTL-offset extraction (`ExtractTTLOffsets`, `pkg/dnsutils`)

One forward parse of the packed message: skip the question section, then
walk `ANCOUNT + NSCOUNT + ARCOUNT` resource records, recording for each
non-OPT record the offset of its TTL field (4 bytes past the end of the
owner name) into a fixed 8-slot table.  The fixed `[8]uint16` array plus
count of the Go function is modelled as the list of its first `count`
entries. -/

/-- The extractor's `skipName`: walk length-prefixed labels; a zero byte
ends the name one byte on, a compression pointer (top two bits set) two
bytes on; running past the end returns the current offset. -/
def skipName (wire : List Nat) (offset : Nat) : Nat :=
  if h : offset < wire.length then
    let b := readByte wire offset
    if b = 0 then offset + 1
    else if b &&& 192 = 192 then offset + 2
    else skipName wire (offset + b + 1)
  else offset
termination_by wire.length - offset
decreasing_by simp_wf; omega

/-- The question-section skip: `qdcount` iterations of
`offset = skipName(wire, offset) + 4`, stopping early at the end of the
buffer. -/
def skipQuestions (wire : List Nat) : Nat → Nat → Nat
  | 0, offset => offset
  | n + 1, offset =>
    if offset < wire.length then skipQuestions wire n (skipName wire offset + 4)
    else offset

/-- The fused record scan of `ExtractTTLOffsets`: `n` is the remaining
record budget (`totalRR`), `acc` the offsets recorded so far (the Go
`offsets[0:count]`).  A record's offset is recorded when its type is not
OPT (41) and fewer than 8 offsets are held; the scan then advances by
`10 + rdlength`. -/
def scanTTL (wire : List Nat) : Nat → Nat → List Nat → List Nat
  | 0, _, acc => acc
  | n + 1, offset, acc =>
    if offset < wire.length then
      let o := skipName wire offset
      if o + 10 > wire.length then acc
      else
        scanTTL wire n (o + 10 + readU16 wire (o + 8))
          (if readU16 wire o != 41 && acc.length < 8 then
            acc ++ [(o + 4) % 65536]
          else acc)
    else acc

/-- `ExtractTTLOffsets(wire) (offsets [8]uint16, count uint8)`: the
recorded TTL offsets (first `count` array slots) and the count. -/
def extractTTLOffsets (wire : List Nat) : List Nat × Nat :=
  if wire.length < 12 then ([], 0)
  else
    let totalRR := readU16 wire 6 + readU16 wire 8 + readU16 wire 10
    let offs := scanTTL wire totalRR (skipQuestions wire (readU16 wire 4) 12) []
    (offs, offs.length)

/-- Declarative companion of the scan, following the claim's wording: the
(post-name position, record type) pairs of the resource records the single
forward parse visits, in order. -/
def rrPositions (wire : List Nat) : Nat → Nat → List (Nat × Nat)
  | 0, _ => []
  | n + 1, offset =>
    if offset < wire.length then
      let o := skipName wire offset
      if o + 10 > wire.length then []
      else (o, readU16 wire o) ::
        rrPositions wire n (o + 10 + readU16 wire (o + 8))
    else []

/-- The claim's description of the extraction result: for each visited
resource record whose type is not 41 (OPT), the offset `post-name
position + 4` (as a 16-bit value), keeping exactly the first 8 when more
are present. -/
def specTTLOffsets (wire : List Nat) : List Nat :=
  if wire.length < 12 then []
  else
    ((((rrPositions wire (readU16 wire 6 + readU16 wire 8 + readU16 wire 10)
        (skipQuestions wire (readU16 wire 4) 12)).filter
      (fun p => p.2 != 41)).map (fun p => (p.1 + 4) % 65536)).take 8)

theorem scanTTL_spec (wire : List Nat) (n : Nat) :
    ∀ offset acc, acc.length ≤ 8 →
    scanTTL wire n offset acc =
      acc ++ (((rrPositions wire n offset).filter (fun p => p.2 != 41)).map
        (fun p => (p.1 + 4) % 65536)).take (8 - acc.length) := by
  induction n with
  | zero =>
    intro offset acc _
    simp [scanTTL, rrPositions]
  | succ n ih =>
    intro offset acc hacc
    unfold scanTTL rrPositions
    by_cases hoff : offset < wire.length
    · simp only [hoff, if_true]
      by_cases hbound : skipName wire offset + 10 > wire.length
      · simp [hbound]
      · simp only [hbound, if_false]
        by_cases hty : readU16 wire (skipName wire offset) != 41
        · by_cases hlen : acc.length < 8
          · rw [if_pos (by simp [hty, hlen])]
            rw [ih _ (acc ++ [(skipName wire offset + 4) % 65536])
              (by simp; omega)]
            simp only [List.filter_cons, hty, if_pos, List.map_cons]
            rw [show (8 - acc.length) = (8 - (acc ++
              [(skipName wire offset + 4) % 65536]).length) + 1 by simp; omega]
            rw [List.take_succ_cons, List.append_assoc]
            simp
          · have hacc8 : acc.length = 8 := by omega
            rw [if_neg (by simp [hlen])]
            rw [ih _ acc hacc]
            simp only [List.filter_cons, hty, if_pos, List.map_cons, hacc8]
            simp
        · rw [if_neg (by simp [hty])]
          rw [ih _ acc hacc]
          simp only [List.filter_cons, hty]
          simp [Bool.not_eq_true] at hty
          simp [hty]
    · simp [hoff]

/-- C5: the TTL-offset extraction equals its declarative description — one
forward parse skipping the question section, then for each visited
resource record of type ≠ 41 (OPT) the recorded offset is the record's
post-name position + 4 (the scan advancing by 10 + rdlength), keeping
exactly the offsets of the first 8 non-OPT records when more are present —
and the returned count is the number of recorded offsets. -/
theorem c5_extract_ttl_offsets (wire : List Nat) :
    (extractTTLOffsets wire).1 = specTTLOffsets wire ∧
      (extractTTLOffsets wire).2 = (specTTLOffsets wire).length := by
  unfold extractTTLOffsets specTTLOffsets
  by_cases hlen : wire.length < 12
  · simp [hlen]
  · simp only [hlen, if_false]
    rw [scanTTL_spec wire _ _ [] (by simp)]
    simp

end Mosdns
